import Mathlib

/-!
Verification development for the mentoring scheduler (`schedule.py`).

The Python source is shallowly embedded as follows:

* Python strings are `List Char`; `str.split(sep)` with a one-character
  separator is `splitOnChar` (Python keeps empty fields, so does ours).
* `datetime.strptime(s, h_colon_m)` applied to a time of day is `parseHM`,
  returning the time as minutes since midnight (`Nat`); the directive
  accepts one or two digits for each field, requires the hour below 24 and
  the minute below 60, and rejects any leftover characters.
* `timedelta` values produced by subtracting two times of the same day are
  `Int` minutes; `total_seconds() / 60 / 60` is `hours_of`.
* Python floats arising from distances and speeds are modelled as `ℚ`.
* A function that can raise is `Option`-valued (construction) or
  `Except String`-valued (the matching loops, where a raised `TypeError`
  must be distinguished from returning `None`).
-/

/-- The `DAYS_OF_THE_WEEK` table of `schedule.py`, in its insertion
(= iteration) order: Monday 1 … Sunday 7. -/
def DAYS_OF_THE_WEEK : List (List Char × Nat) :=
  [("Monday".toList, 1), ("Tuesday".toList, 2), ("Wednesday".toList, 3),
   ("Thursday".toList, 4), ("Friday".toList, 5), ("Saturday".toList, 6),
   ("Sunday".toList, 7)]

/-- `MAX_SPEED = 50` (km/h) from `schedule.py`. -/
def MAX_SPEED : ℚ := 50

/-- Python `s.split(c)` for a single-character separator: every occurrence
of `c` splits, empty fields are kept (`''.split(c) = ['']`). -/
def splitOnChar (sep : Char) : List Char → List (List Char)
  | [] => [[]]
  | c :: rest =>
    let r := splitOnChar sep rest
    if c = sep then [] :: r
    else
      match r with
      | [] => [[c]]
      | x :: xs => (c :: x) :: xs

/-- ASCII decimal digit test, as used by `strptime` field matching. -/
def isDigit (c : Char) : Bool := decide ('0' ≤ c) && decide (c ≤ '9')

/-- Numeric value of a list of decimal digit characters. -/
def digitsToNat (l : List Char) : Nat :=
  l.foldl (fun acc c => acc * 10 + (c.toNat - 48)) 0

/-- `datetime.strptime(s, h_colon_m)` for the time-of-day pattern used by
`TimePeriod.__init__`: one or two digits, a colon, one or two digits,
nothing else; hour at most 23, minute at most 59.  Returns the time as
minutes since midnight, or `none` when `strptime` raises `ValueError`. -/
def parseHM (s : List Char) : Option Nat :=
  match splitOnChar ':' s with
  | [hs, ms] =>
    if 1 ≤ hs.length ∧ hs.length ≤ 2 ∧ hs.all isDigit = true ∧
       1 ≤ ms.length ∧ ms.length ≤ 2 ∧ ms.all isDigit = true then
      let h := digitsToNat hs
      let m := digitsToNat ms
      if h ≤ 23 ∧ m ≤ 59 then some (h * 60 + m) else none
    else none
  | _ => none

/-- The loop body of `TimePeriod._parse_day`, iterating over the given
table: the first day whose full name starts with the given string wins. -/
def parseDayAux (s : List Char) : List (List Char × Nat) → Option (Nat × List Char)
  | [] => none
  | (day, number) :: rest =>
    if List.isPrefixOf s day then some (number, day)
    else parseDayAux s rest

/-- `TimePeriod._parse_day`: resolve a weekday by prefix match against the
full weekday names in table order; `none` models the raised `ValueError`. -/
def parse_day (s : List Char) : Option (Nat × List Char) :=
  parseDayAux s DAYS_OF_THE_WEEK

/-- The state built by `TimePeriod.__init__`: weekday number, full weekday
name, and the start and end times in minutes since midnight. -/
structure TimePeriod where
  day : Nat
  day_string : List Char
  start_time : Nat
  end_time : Nat
  deriving Repr, DecidableEq

/-- `TimePeriod.__init__(string)`: split on spaces, resolve the weekday
from field 0, split field 1 on dashes and `strptime` its first two
fields.  Any of the accesses or parses failing raises, modelled by
`none`.  Fields beyond the ones accessed are ignored, as in the source. -/
def parseTimePeriod (l : List Char) : Option TimePeriod :=
  match splitOnChar ' ' l with
  | p0 :: p1 :: _ =>
    match parse_day p0 with
    | some (d, ds) =>
      match splitOnChar '-' p1 with
      | t0 :: t1 :: _ =>
        match parseHM t0, parseHM t1 with
        | some st, some et => some ⟨d, ds, st, et⟩
        | _, _ => none
      | _ => none
    | none => none
  | _ => none

/-- Zero-padded two-digit decimal rendering, as produced by
`strftime` for the hour and minute fields. -/
def two_digits (n : Nat) : List Char :=
  [Char.ofNat (48 + n / 10), Char.ofNat (48 + n % 10)]

/-- `strftime` of a time of day with the hour-colon-minute pattern. -/
def renderHM (t : Nat) : List Char :=
  two_digits (t / 60) ++ ':' :: two_digits (t % 60)

/-- `TimePeriod.__str__`: the first three letters of the weekday name, a
space, and the two times joined by a dash. -/
def renderTimePeriod (p : TimePeriod) : List Char :=
  p.day_string.take 3 ++ ' ' :: (renderHM p.start_time ++ '-' :: renderHM p.end_time)

/-- `TimePeriod.get_times`: despite its docstring promising to factor in
the travel time, the source returns the raw start and end times (no
travel attribute exists on the class). -/
def get_times (p : TimePeriod) : Nat × Nat :=
  (p.start_time, p.end_time)

/-- `TimePeriod.fits_in`: false across weekdays, otherwise strict
comparison of the `get_times` endpoints. -/
def fits_in (p other_period : TimePeriod) : Bool :=
  if p.day ≠ other_period.day then false
  else
    let mt := get_times p
    let ot := get_times other_period
    decide (mt.1 > ot.1) && decide (mt.2 < ot.2)

/-- The state of `Team` relevant to matching: TLA, `arranged` flag,
geocoded distance in metres (`none` when geocoding found no location, the
warning case), and the parsed meeting time periods. -/
structure Team where
  tla : String
  arranged : Bool
  distance : Option ℚ
  meeting_times : List TimePeriod

/-- `Team.distance_km = Team.distance / 1000` (both `None` when geocoding
failed). -/
def distance_km (t : Team) : Option ℚ :=
  t.distance.map (fun d => d / 1000)

/-- The state of `Mentor`: name, `rookie` flag, parsed free time periods. -/
structure Mentor where
  name : String
  rookie : Bool
  free_times : List TimePeriod

/-- `SuitableMentor.journey_there = meeting start − free start`, a
`timedelta` in minutes. -/
def journey_there_of (mt ft : TimePeriod) : Int :=
  ((get_times mt).1 : Int) - ((get_times ft).1 : Int)

/-- `SuitableMentor.journey_back = free end − meeting end`, a `timedelta`
in minutes. -/
def journey_back_of (mt ft : TimePeriod) : Int :=
  ((get_times ft).2 : Int) - ((get_times mt).2 : Int)

/-- `timedelta.total_seconds() / 60 / 60`: a journey of `j` minutes
expressed in hours. -/
def hours_of (j : Int) : ℚ :=
  ((j * 60 : Int) : ℚ) / 60 / 60

/-- `distance_km / (journey.total_seconds() / 60 / 60)`: speed in km/h. -/
def journey_speed (dkm : ℚ) (j : Int) : ℚ :=
  dkm / hours_of j

/-- The `max_journey_speed` computed by `SuitableMentor.__init__` for a
team at `d` metres. -/
def max_speed_of (d : ℚ) (mt ft : TimePeriod) : ℚ :=
  max (journey_speed (d / 1000) (journey_there_of mt ft))
      (journey_speed (d / 1000) (journey_back_of mt ft))

/-- The state built by `SuitableMentor.__init__`.  The source assigns
`min_journey_speed` twice (first from the metre distance, then from the
km/h speeds); only the final values are modelled. -/
structure SuitableMentor where
  mentor : Mentor
  team : Team
  meeting_time : TimePeriod
  journey_there : Int
  journey_back : Int
  min_journey_time : Int
  max_journey_time : Int
  journey_there_speed : ℚ
  journey_back_speed : ℚ
  min_journey_speed : ℚ
  max_journey_speed : ℚ

/-- `SuitableMentor.__init__`: dividing by a `None` distance raises
`TypeError` (modelled as `none`); otherwise all fields are computed. -/
def mkSuitableMentor (m : Mentor) (t : Team) (mt ft : TimePeriod) :
    Option SuitableMentor :=
  match t.distance with
  | none => none
  | some dist =>
    let jt := journey_there_of mt ft
    let jb := journey_back_of mt ft
    let dkm := dist / 1000
    let jts := journey_speed dkm jt
    let jbs := journey_speed dkm jb
    some ⟨m, t, mt, jt, jb, min jt jb, max jt jb, jts, jbs,
          min jts jbs, max jts jbs⟩

/-- Inner loop of `Mentor.is_suitable_for`: scan the team's meeting times
against one fixed free time; on a fit, build the `SuitableMentor`
(possibly raising) and return it when its top speed is feasible. -/
def suitableInner (m : Mentor) (t : Team) (ft : TimePeriod) :
    List TimePeriod → Except String (Option SuitableMentor)
  | [] => .ok none
  | mt :: rest =>
    if fits_in mt ft then
      match mkSuitableMentor m t mt ft with
      | none => .error "TypeError"
      | some sm =>
        if sm.max_journey_speed < MAX_SPEED then .ok (some sm)
        else suitableInner m t ft rest
    else suitableInner m t ft rest

/-- Outer loop of `Mentor.is_suitable_for` over the mentor's free times. -/
def suitableOuter (m : Mentor) (t : Team) :
    List TimePeriod → Except String (Option SuitableMentor)
  | [] => .ok none
  | ft :: rest =>
    match suitableInner m t ft t.meeting_times with
    | .ok none => suitableOuter m t rest
    | r => r

/-- `Mentor.is_suitable_for(team)`: the first (free time, meeting time)
pair, free times outermost, that fits and passes the `MAX_SPEED` check;
`ok none` models returning `None`, `error` models the raised
`TypeError` when the team's distance is unknown. -/
def is_suitable_for (m : Mentor) (t : Team) :
    Except String (Option SuitableMentor) :=
  suitableOuter m t m.free_times

/-- The loop of `Team.find_suitable_mentors`: collect the truthy results
of `is_suitable_for` over all mentors, propagating a raised error. -/
def findSuitableMentorsGo (t : Team) :
    List Mentor → Except String (List SuitableMentor)
  | [] => .ok []
  | m :: rest =>
    match is_suitable_for m t with
    | .error e => .error e
    | .ok none => findSuitableMentorsGo t rest
    | .ok (some sm) => Except.map (fun l => sm :: l) (findSuitableMentorsGo t rest)

/-- `Team.find_suitable_mentors(all_mentors)`: empty for `arranged`
teams, otherwise the collected suitable mentors. -/
def find_suitable_mentors (t : Team) (all_mentors : List Mentor) :
    Except String (List SuitableMentor) :=
  if t.arranged then .ok [] else findSuitableMentorsGo t all_mentors

/-- `Mentor.find_suitable_teams(all_teams)`: skip `arranged` teams,
collect the truthy results of `is_suitable_for` over the rest. -/
def find_suitable_teams (m : Mentor) :
    List Team → Except String (List SuitableMentor)
  | [] => .ok []
  | t :: rest =>
    if t.arranged then find_suitable_teams m rest
    else
      match is_suitable_for m t with
      | .error e => .error e
      | .ok none => find_suitable_teams m rest
      | .ok (some sm) => Except.map (fun l => sm :: l) (find_suitable_teams m rest)

/-- Replace a mentor's `rookie` flag. -/
def set_rookie (b : Bool) (m : Mentor) : Mentor :=
  ⟨m.name, b, m.free_times⟩

/-- Replace the `rookie` flag of the mentor embedded in a result. -/
def set_rookie_sm (b : Bool) (sm : SuitableMentor) : SuitableMentor :=
  { sm with mentor := set_rookie b sm.mentor }

/-- The meeting window `Mon 10:00-11:00` used in concrete checks. -/
def exMeeting : TimePeriod := ⟨1, "Monday".toList, 600, 660⟩

/-- The free window `Mon 09:00-12:00` used in concrete checks. -/
def exFree : TimePeriod := ⟨1, "Monday".toList, 540, 720⟩

/-- A team 10 km away meeting `Mon 10:00-11:00` (one-hour journeys give
10 km/h, well under `MAX_SPEED`). -/
def exTeamNear : Team := ⟨"ABC", false, some 10000, [exMeeting]⟩

/-- A team 100 km away meeting `Mon 10:00-11:00` (one-hour journeys give
100 km/h, over `MAX_SPEED`). -/
def exTeamFar : Team := ⟨"FAR", false, some 100000, [exMeeting]⟩

/-- A team whose postcode failed to geocode: its distance is unknown. -/
def exTeamNoDist : Team := ⟨"LOC", false, none, [exMeeting]⟩

/-- A team already arranged with a mentor. -/
def exTeamArranged : Team := ⟨"ARR", true, some 10000, [exMeeting]⟩

/-- A rookie mentor free `Mon 09:00-12:00`. -/
def exRookie : Mentor := ⟨"Rita", true, [exFree]⟩

/-- With a known distance, `SuitableMentor.__init__` succeeds and its
fields take the stated values. -/
theorem mkSuitableMentor_eq_some (m : Mentor) (t : Team) (mt ft : TimePeriod)
    (d : ℚ) (hd : t.distance = some d) :
    mkSuitableMentor m t mt ft =
      some ⟨m, t, mt, journey_there_of mt ft, journey_back_of mt ft,
            min (journey_there_of mt ft) (journey_back_of mt ft),
            max (journey_there_of mt ft) (journey_back_of mt ft),
            journey_speed (d / 1000) (journey_there_of mt ft),
            journey_speed (d / 1000) (journey_back_of mt ft),
            min (journey_speed (d / 1000) (journey_there_of mt ft))
                (journey_speed (d / 1000) (journey_back_of mt ft)),
            max_speed_of d mt ft⟩ := by
  rw [mkSuitableMentor, hd]
  rfl

/-- The inner loop of `is_suitable_for` succeeds exactly when some meeting
time fits the free time with a feasible top journey speed. -/
theorem suitableInner_iff (m : Mentor) (t : Team) (ft : TimePeriod) (d : ℚ)
    (hd : t.distance = some d) (mts : List TimePeriod) :
    (∃ sm, suitableInner m t ft mts = .ok (some sm)) ↔
      ∃ mt ∈ mts, fits_in mt ft = true ∧ max_speed_of d mt ft < MAX_SPEED := by
  induction mts with
  | nil => simp [suitableInner]
  | cons mt rest ih =>
    rw [suitableInner]
    by_cases hf : fits_in mt ft
    · rw [if_pos hf, mkSuitableMentor_eq_some m t mt ft d hd]
      by_cases hs : max_speed_of d mt ft < MAX_SPEED
      · simp only [hs, if_pos]
        constructor
        · intro _; exact ⟨mt, by simp, hf, hs⟩
        · intro _; exact ⟨_, rfl⟩
      · simp only [hs, if_neg, not_false_iff]
        rw [ih]
        constructor
        · rintro ⟨mt2, hmem, hfit2, hs2⟩; exact ⟨mt2, by simp [hmem], hfit2, hs2⟩
        · rintro ⟨mt2, hmem, hfit2, hs2⟩
          rcases List.mem_cons.mp hmem with rfl | hmem2
          · exact absurd hs2 hs
          · exact ⟨mt2, hmem2, hfit2, hs2⟩
    · rw [if_neg hf, ih]
      constructor
      · rintro ⟨mt2, hmem, hfit2, hs2⟩; exact ⟨mt2, by simp [hmem], hfit2, hs2⟩
      · rintro ⟨mt2, hmem, hfit2, hs2⟩
        rcases List.mem_cons.mp hmem with rfl | hmem2
        · exact absurd hfit2 (by simpa using hf)
        · exact ⟨mt2, hmem2, hfit2, hs2⟩

/-- With a known distance the inner loop never raises. -/
theorem suitableInner_shape (m : Mentor) (t : Team) (ft : TimePeriod) (d : ℚ)
    (hd : t.distance = some d) (mts : List TimePeriod) :
    suitableInner m t ft mts = .ok none ∨
      ∃ sm, suitableInner m t ft mts = .ok (some sm) := by
  induction mts with
  | nil => left; rfl
  | cons mt rest ih =>
    rw [suitableInner]
    by_cases hf : fits_in mt ft
    · rw [if_pos hf, mkSuitableMentor_eq_some m t mt ft d hd]
      by_cases hs : max_speed_of d mt ft < MAX_SPEED
      · simp only [hs, if_pos]
        right; exact ⟨_, rfl⟩
      · simpa only [hs, if_neg, not_false_iff] using ih
    · simpa only [hf, if_neg, not_false_iff] using ih

/-- The outer loop of `is_suitable_for` succeeds exactly when some
(free time, meeting time) pair fits with a feasible top journey speed. -/
theorem suitableOuter_iff (m : Mentor) (t : Team) (d : ℚ)
    (hd : t.distance = some d) (fts : List TimePeriod) :
    (∃ sm, suitableOuter m t fts = .ok (some sm)) ↔
      ∃ ft ∈ fts, ∃ mt ∈ t.meeting_times,
        fits_in mt ft = true ∧ max_speed_of d mt ft < MAX_SPEED := by
  induction fts with
  | nil => simp [suitableOuter]
  | cons ft rest ih =>
    rw [suitableOuter]
    rcases suitableInner_shape m t ft d hd t.meeting_times with hsh | ⟨sm, hsh⟩
    · rw [hsh]
      have hnone : ¬ ∃ mt ∈ t.meeting_times,
          fits_in mt ft = true ∧ max_speed_of d mt ft < MAX_SPEED := by
        rw [← suitableInner_iff m t ft d hd]
        rintro ⟨sm, hsm⟩
        rw [hsh] at hsm
        cases hsm
      rw [ih]
      constructor
      · rintro ⟨ft2, hmem, rest2⟩; exact ⟨ft2, by simp [hmem], rest2⟩
      · rintro ⟨ft2, hmem, rest2⟩
        rcases List.mem_cons.mp hmem with rfl | hmem2
        · exact absurd rest2 hnone
        · exact ⟨ft2, hmem2, rest2⟩
    · rw [hsh]
      constructor
      · intro _
        have : ∃ sm, suitableInner m t ft t.meeting_times = .ok (some sm) := ⟨sm, hsh⟩
        rw [suitableInner_iff m t ft d hd] at this
        exact ⟨ft, by simp, this⟩
      · intro _; exact ⟨sm, rfl⟩

/-- C2 (amended): `Mentor.is_suitable_for(team)` (with the team distance
known) succeeds iff some (free window, meeting window) pair satisfies
`fits_in` AND the implied maximal journey speed is under `MAX_SPEED`; it
is not a pure existence check over the windows. -/
theorem c2_is_suitable_for_iff (m : Mentor) (t : Team) (d : ℚ)
    (hd : t.distance = some d) :
    (∃ sm, is_suitable_for m t = .ok (some sm)) ↔
      ∃ ft ∈ m.free_times, ∃ mt ∈ t.meeting_times,
        fits_in mt ft = true ∧ max_speed_of d mt ft < MAX_SPEED :=
  suitableOuter_iff m t d hd m.free_times

/-- Witness for C2: the theorem applied to a concrete mentor and team. -/
theorem c2_witness :
    (∃ sm, is_suitable_for exRookie exTeamNear = .ok (some sm)) ↔
      ∃ ft ∈ exRookie.free_times, ∃ mt ∈ exTeamNear.meeting_times,
        fits_in mt ft = true ∧ max_speed_of 10000 mt ft < MAX_SPEED :=
  c2_is_suitable_for_iff exRookie exTeamNear 10000 rfl

/-- Counterexample to C2 as stated: a fitting pair of windows exists for
this mentor and team, yet `is_suitable_for` returns `None`, because the
100 km distance forces a 100 km/h journey speed, over `MAX_SPEED`. -/
theorem c2_counterexample :
    fits_in exMeeting exFree = true ∧ exMeeting ∈ exTeamFar.meeting_times ∧
    exFree ∈ exRookie.free_times ∧ is_suitable_for exRookie exTeamFar = .ok none := by
  refine ⟨by decide, by simp [exTeamFar], by simp [exRookie], ?_⟩
  simp [is_suitable_for, suitableOuter, suitableInner, mkSuitableMentor, exTeamFar,
        exRookie, exMeeting, exFree, fits_in, get_times, journey_speed, hours_of,
        journey_there_of, journey_back_of, MAX_SPEED]
  norm_num

/-- `SuitableMentor.__init__` never reads the rookie flag. -/
theorem mkSuitableMentor_set_rookie (b : Bool) (m : Mentor) (t : Team)
    (mt ft : TimePeriod) :
    mkSuitableMentor (set_rookie b m) t mt ft =
      Option.map (set_rookie_sm b) (mkSuitableMentor m t mt ft) := by
  cases hd : t.distance <;> simp [mkSuitableMentor, hd, set_rookie_sm, set_rookie]

/-- The inner suitability loop never reads the rookie flag. -/
theorem suitableInner_set_rookie (b : Bool) (m : Mentor) (t : Team)
    (ft : TimePeriod) (mts : List TimePeriod) :
    suitableInner (set_rookie b m) t ft mts =
      Except.map (Option.map (set_rookie_sm b)) (suitableInner m t ft mts) := by
  induction mts with
  | nil => rfl
  | cons mt rest ih =>
    rw [suitableInner, suitableInner, mkSuitableMentor_set_rookie]
    by_cases hf : fits_in mt ft
    · rw [if_pos hf, if_pos hf]
      cases hmk : mkSuitableMentor m t mt ft with
      | none => rfl
      | some sm =>
        have hmap : Option.map (set_rookie_sm b) (some sm) = some (set_rookie_sm b sm) := rfl
        have hmax : (set_rookie_sm b sm).max_journey_speed = sm.max_journey_speed := rfl
        rw [hmap]
        by_cases hs : sm.max_journey_speed < MAX_SPEED
        · simp [hmax, hs, Except.map]
        · simp [hmax, hs, ih, Except.map]
    · rw [if_neg hf, if_neg hf, ih]

/-- The outer suitability loop never reads the rookie flag. -/
theorem suitableOuter_set_rookie (b : Bool) (m : Mentor) (t : Team)
    (fts : List TimePeriod) :
    suitableOuter (set_rookie b m) t fts =
      Except.map (Option.map (set_rookie_sm b)) (suitableOuter m t fts) := by
  induction fts with
  | nil => rfl
  | cons ft rest ih =>
    rw [suitableOuter, suitableOuter, suitableInner_set_rookie]
    cases hin : suitableInner m t ft t.meeting_times with
    | error e => rfl
    | ok o =>
      cases o with
      | none => simpa using ih
      | some sm => rfl

/-- `is_suitable_for` never reads the rookie flag. -/
theorem is_suitable_for_set_rookie (b : Bool) (m : Mentor) (t : Team) :
    is_suitable_for (set_rookie b m) t =
      Except.map (Option.map (set_rookie_sm b)) (is_suitable_for m t) :=
  suitableOuter_set_rookie b m t m.free_times

/-- C3 (amended): the classifier applies no rookie-based filtering at
all: reassigning every rookie flag leaves `find_suitable_mentors`
unchanged except for the flag stored inside each result, so a suitable
set is returned unchanged whatever its rookie composition. -/
theorem c3_rookie_independent (t : Team) (ms : List Mentor) (b : Bool) :
    find_suitable_mentors t (ms.map (set_rookie b)) =
      Except.map (List.map (set_rookie_sm b)) (find_suitable_mentors t ms) := by
  rw [find_suitable_mentors, find_suitable_mentors]
  by_cases ha : t.arranged
  · rw [if_pos ha, if_pos ha]; rfl
  · rw [if_neg ha, if_neg ha]
    induction ms with
    | nil => rfl
    | cons m rest ih =>
      rw [List.map_cons, findSuitableMentorsGo, findSuitableMentorsGo,
          is_suitable_for_set_rookie]
      cases his : is_suitable_for m t with
      | error e => rfl
      | ok o =>
        cases o with
        | none => simpa using ih
        | some sm =>
          simp only [Except.map, Option.map_some]
          rw [ih]
          cases hrest : findSuitableMentorsGo t rest <;> rfl

/-- Counterexample to C3 as stated: a suitable set consisting entirely of
rookies is returned as that one-rookie set, not collapsed to empty. -/
theorem c3_counterexample :
    Except.map (List.map (fun sm => sm.mentor.rookie))
        (find_suitable_mentors exTeamNear [exRookie]) = .ok [true] := by
  simp [find_suitable_mentors, findSuitableMentorsGo, is_suitable_for, suitableOuter,
        suitableInner, mkSuitableMentor, exTeamNear, exRookie, exMeeting, exFree,
        fits_in, get_times, journey_speed, hours_of, journey_there_of,
        journey_back_of, MAX_SPEED, Except.map]
  norm_num

/-- The team stored in a constructed `SuitableMentor` is the team it was
built for. -/
theorem mkSuitableMentor_team (m : Mentor) (t : Team) (mt ft : TimePeriod)
    (sm : SuitableMentor) (h : mkSuitableMentor m t mt ft = some sm) :
    sm.team = t := by
  unfold mkSuitableMentor at h
  cases hd : t.distance <;> rw [hd] at h
  · cases h
  · cases h
    rfl

/-- The team stored in an inner-loop result is the queried team. -/
theorem suitableInner_team (m : Mentor) (t : Team) (ft : TimePeriod)
    (mts : List TimePeriod) (sm : SuitableMentor)
    (h : suitableInner m t ft mts = .ok (some sm)) : sm.team = t := by
  induction mts with
  | nil => cases h
  | cons mt rest ih =>
    rw [suitableInner] at h
    by_cases hf : fits_in mt ft
    · rw [if_pos hf] at h
      cases hmk : mkSuitableMentor m t mt ft <;> rw [hmk] at h
      · cases h
      · rename_i sm0
        by_cases hs : sm0.max_journey_speed < MAX_SPEED
        · simp only [hs, if_true, ite_true] at h
          cases h
          exact mkSuitableMentor_team _ _ _ _ _ hmk
        · simp only [hs, if_false, ite_false] at h
          exact ih h
    · rw [if_neg hf] at h
      exact ih h

/-- The team stored in an outer-loop result is the queried team. -/
theorem suitableOuter_team (m : Mentor) (t : Team) (fts : List TimePeriod)
    (sm : SuitableMentor) (h : suitableOuter m t fts = .ok (some sm)) :
    sm.team = t := by
  induction fts with
  | nil => cases h
  | cons ft rest ih =>
    rw [suitableOuter] at h
    cases hin : suitableInner m t ft t.meeting_times <;> rw [hin] at h
    · cases h
    · rename_i o
      cases o with
      | none => exact ih h
      | some sm0 =>
        cases h
        exact suitableInner_team _ _ _ _ _ hin

/-- The team stored in an `is_suitable_for` result is the queried team. -/
theorem is_suitable_for_team (m : Mentor) (t : Team) (sm : SuitableMentor)
    (h : is_suitable_for m t = .ok (some sm)) : sm.team = t :=
  suitableOuter_team m t m.free_times sm h

/-- Every result yielded by `find_suitable_teams` is for a non-arranged
team. -/
theorem find_suitable_teams_not_arranged (m : Mentor) (ts : List Team)
    (l : List SuitableMentor) (h : find_suitable_teams m ts = .ok l) :
    ∀ sm ∈ l, sm.team.arranged = false := by
  induction ts generalizing l with
  | nil =>
    cases h
    intro sm hsm
    cases hsm
  | cons t rest ih =>
    rw [find_suitable_teams] at h
    by_cases ha : t.arranged
    · rw [if_pos ha] at h
      exact ih l h
    · rw [if_neg ha] at h
      cases his : is_suitable_for m t <;> rw [his] at h
      · cases h
      · rename_i o
        cases o with
        | none => exact ih l h
        | some sm0 =>
          cases hrest : find_suitable_teams m rest <;> rw [hrest] at h
          · cases h
          · rename_i l0
            cases h
            intro sm hsm
            rcases List.mem_cons.mp hsm with rfl | hsm2
            · rw [is_suitable_for_team m t sm his]
              exact Bool.eq_false_iff.mpr ha
            · exact ih l0 hrest sm hsm2

/-- C7: a team flagged `arranged` is always excluded from matching:
`Team.find_suitable_mentors` returns an empty result for it, and
`Mentor.find_suitable_teams` never yields a result for it, regardless of
its windows or the mentor list. -/
theorem c7_arranged_excluded (t : Team) (ms : List Mentor) (h : t.arranged = true) :
    find_suitable_mentors t ms = .ok [] ∧
    ∀ (m : Mentor) (ts : List Team) (l : List SuitableMentor),
      find_suitable_teams m ts = .ok l → ∀ sm ∈ l, sm.team ≠ t := by
  constructor
  · simp [find_suitable_mentors, h]
  · intro m ts l hl sm hsm hteam
    have hna := find_suitable_teams_not_arranged m ts l hl sm hsm
    rw [hteam, h] at hna
    cases hna

/-- Witness for C7: the theorem applied to a concrete arranged team. -/
theorem c7_witness :
    find_suitable_mentors exTeamArranged [exRookie] = .ok [] ∧
    ∀ (m : Mentor) (ts : List Team) (l : List SuitableMentor),
      find_suitable_teams m ts = .ok l → ∀ sm ∈ l, sm.team ≠ exTeamArranged :=
  c7_arranged_excluded exTeamArranged [exRookie] rfl

/-- Splitting a list free of the separator yields that one field. -/
theorem splitOnChar_sep_not_mem (sep : Char) (l : List Char)
    (h : ∀ c ∈ l, ¬ c = sep) : splitOnChar sep l = [l] := by
  induction l with
  | nil => rfl
  | cons c rest ih =>
    rw [splitOnChar]
    rw [if_neg (h c (by simp))]
    rw [ih (fun c2 hc2 => h c2 (by simp [hc2]))]

/-- Splitting at the first separator occurrence peels off the prefix. -/
theorem splitOnChar_append_sep (sep : Char) (l1 l2 : List Char)
    (h : ∀ c ∈ l1, ¬ c = sep) :
    splitOnChar sep (l1 ++ sep :: l2) = l1 :: splitOnChar sep l2 := by
  induction l1 with
  | nil => simp [splitOnChar]
  | cons c rest ih =>
    rw [List.cons_append, splitOnChar]
    rw [if_neg (h c (by simp))]
    rw [ih (fun c2 hc2 => h c2 (by simp [hc2]))]

/-- The character of a decimal digit: its code, digitness, and distinctness
from the three separators used by the grammar. -/
theorem digit_char_facts (x : Nat) (hx : x ≤ 9) :
    (Char.ofNat (48 + x)).toNat = 48 + x ∧
    isDigit (Char.ofNat (48 + x)) = true ∧
    ¬ Char.ofNat (48 + x) = ':' ∧
    ¬ Char.ofNat (48 + x) = ' ' ∧
    ¬ Char.ofNat (48 + x) = '-' := by
  interval_cases x <;> exact ⟨by decide, by decide, by decide, by decide, by decide⟩

/-- Zero-padded two-digit rendering: parses back to the same number, has
length two, is all digits, and contains no separator. -/
theorem two_digits_facts (n : Nat) (hn : n ≤ 99) :
    digitsToNat (two_digits n) = n ∧
    (two_digits n).length = 2 ∧
    (two_digits n).all isDigit = true ∧
    ∀ c ∈ two_digits n, ¬ c = ':' ∧ ¬ c = ' ' ∧ ¬ c = '-' := by
  have h1 := digit_char_facts (n / 10) (by omega)
  have h2 := digit_char_facts (n % 10) (by omega)
  refine ⟨?_, rfl, ?_, ?_⟩
  · simp only [two_digits, digitsToNat, List.foldl]
    rw [h1.1, h2.1]
    omega
  · simp only [two_digits, List.all_cons, List.all_nil, h1.2.1, h2.2.1,
      Bool.and_true, Bool.and_self]
  · intro c hc
    rcases List.mem_cons.mp hc with rfl | hc2
    · exact ⟨h1.2.2.1, h1.2.2.2.1, h1.2.2.2.2⟩
    · rcases List.mem_cons.mp hc2 with rfl | hc3
      · exact ⟨h2.2.2.1, h2.2.2.2.1, h2.2.2.2.2⟩
      · cases hc3

/-- Rendering a valid time of day and parsing it back is the identity. -/
theorem parseHM_renderHM (t : Nat) (ht : t ≤ 1439) :
    parseHM (renderHM t) = some t := by
  have hh := two_digits_facts (t / 60) (by omega)
  have hm := two_digits_facts (t % 60) (by omega)
  rw [renderHM, parseHM]
  rw [splitOnChar_append_sep ':' _ _ (fun c hc => (hh.2.2.2 c hc).1)]
  rw [splitOnChar_sep_not_mem ':' _ (fun c hc => (hm.2.2.2 c hc).1)]
  show (if 1 ≤ (two_digits (t / 60)).length ∧ (two_digits (t / 60)).length ≤ 2 ∧
          (two_digits (t / 60)).all isDigit = true ∧ 1 ≤ (two_digits (t % 60)).length ∧
          (two_digits (t % 60)).length ≤ 2 ∧ (two_digits (t % 60)).all isDigit = true then
        if digitsToNat (two_digits (t / 60)) ≤ 23 ∧ digitsToNat (two_digits (t % 60)) ≤ 59 then
          some (digitsToNat (two_digits (t / 60)) * 60 + digitsToNat (two_digits (t % 60)))
        else none
      else none) = some t
  rw [if_pos ⟨by rw [hh.2.1]; decide, by rw [hh.2.1], hh.2.2.1,
              by rw [hm.2.1]; decide, by rw [hm.2.1], hm.2.2.1⟩]
  rw [hh.1, hm.1]
  rw [if_pos ⟨by omega, by omega⟩]
  congr 1
  omega

/-- A parsed time of day is at most 23:59. -/
theorem parseHM_le (s : List Char) (v : Nat) (h : parseHM s = some v) : v ≤ 1439 := by
  rw [parseHM] at h
  split at h
  · split at h
    · dsimp only at h
      split at h
      · rename_i hcond
        cases h
        omega
      · cases h
    · cases h
  · cases h

/-- A resolved weekday comes from the table. -/
theorem parseDayAux_mem (s : List Char) (table : List (List Char × Nat))
    (n : Nat) (ds : List Char) (h : parseDayAux s table = some (n, ds)) :
    (ds, n) ∈ table := by
  induction table with
  | nil => cases h
  | cons e rest ih =>
    obtain ⟨day, num⟩ := e
    rw [parseDayAux] at h
    by_cases hp : List.isPrefixOf s day
    · rw [if_pos hp] at h
      cases h
      exact List.mem_cons_self _ _
    · rw [if_neg hp] at h
      exact List.mem_cons_of_mem _ (ih h)

/-- The `_parse_day` loop returns the first table entry whose full name
the given string is a prefix of. -/
theorem parseDayAux_find (s : List Char) (table : List (List Char × Nat)) :
    parseDayAux s table =
      Option.map (fun e => (e.2, e.1))
        (table.find? (fun e => List.isPrefixOf s e.1)) := by
  induction table with
  | nil => rfl
  | cons e rest ih =>
    obtain ⟨day, num⟩ := e
    rw [parseDayAux]
    by_cases hp : List.isPrefixOf s day
    · rw [if_pos hp, List.find?_cons_of_pos _ (by simpa using hp)]
      rfl
    · rw [if_neg hp, List.find?_cons_of_neg _ (by simpa using hp)]
      exact ih

/-- A rendered time of day contains no space and no dash. -/
theorem renderHM_no_sep (t : Nat) (ht : t ≤ 1439) :
    ∀ c ∈ renderHM t, ¬ c = ' ' ∧ ¬ c = '-' := by
  have hh := two_digits_facts (t / 60) (by omega)
  have hm := two_digits_facts (t % 60) (by omega)
  intro c hc
  rw [renderHM] at hc
  rcases List.mem_append.mp hc with hc1 | hc2
  · exact ⟨(hh.2.2.2 c hc1).2.1, (hh.2.2.2 c hc1).2.2⟩
  · rcases List.mem_cons.mp hc2 with rfl | hc3
    · exact ⟨by decide, by decide⟩
    · exact ⟨(hm.2.2.2 c hc3).2.1, (hm.2.2.2 c hc3).2.2⟩

/-- Rendering a window whose weekday round-trips through `_parse_day`
and whose times are valid, then re-parsing, restores the window. -/
theorem render_parse_of_day (n : Nat) (ds : List Char) (st et : Nat)
    (hday : parse_day (ds.take 3) = some (n, ds))
    (hsp : ∀ c ∈ ds.take 3, ¬ c = ' ')
    (hst : st ≤ 1439) (het : et ≤ 1439) :
    parseTimePeriod (renderTimePeriod ⟨n, ds, st, et⟩) = some ⟨n, ds, st, et⟩ := by
  have hb : ∀ c ∈ renderHM st ++ '-' :: renderHM et, ¬ c = ' ' := by
    intro c hc
    rcases List.mem_append.mp hc with hc1 | hc2
    · exact (renderHM_no_sep st hst c hc1).1
    · rcases List.mem_cons.mp hc2 with rfl | hc3
      · decide
      · exact (renderHM_no_sep et het c hc3).1
  have h1 : splitOnChar ' ' (ds.take 3 ++ ' ' :: (renderHM st ++ '-' :: renderHM et)) =
      (ds.take 3) :: splitOnChar ' ' (renderHM st ++ '-' :: renderHM et) :=
    splitOnChar_append_sep ' ' _ _ hsp
  have h2 : splitOnChar ' ' (renderHM st ++ '-' :: renderHM et) =
      [renderHM st ++ '-' :: renderHM et] :=
    splitOnChar_sep_not_mem ' ' _ hb
  have h3 : splitOnChar '-' (renderHM st ++ '-' :: renderHM et) =
      renderHM st :: splitOnChar '-' (renderHM et) :=
    splitOnChar_append_sep '-' _ _ (fun c hc => (renderHM_no_sep st hst c hc).2)
  have h4 : splitOnChar '-' (renderHM et) = [renderHM et] :=
    splitOnChar_sep_not_mem '-' _ (fun c hc => (renderHM_no_sep et het c hc).2)
  rw [renderTimePeriod]
  simp only [parseTimePeriod, h1, h2, h3, h4, hday, parseHM_renderHM st hst,
             parseHM_renderHM et het]

/-- C9: round-trip: for every window produced by parsing (the only
constructor in the source), rendering it with `__str__` and re-parsing
yields an equivalent window: the very same weekday number, weekday name,
start time and end time. -/
theorem c9_roundtrip (l : List Char) (p : TimePeriod)
    (h : parseTimePeriod l = some p) :
    parseTimePeriod (renderTimePeriod p) = some p := by
  rw [parseTimePeriod] at h
  split at h
  · rename_i p0 p1 rest hsp
    split at h
    · rename_i d ds hpd
      split at h
      · rename_i t0 t1 tr hs2
        split at h
        · rename_i st et hst het
          cases h
          have hmem := parseDayAux_mem p0 DAYS_OF_THE_WEEK d ds hpd
          have hstle := parseHM_le t0 st hst
          have hetle := parseHM_le t1 et het
          simp only [DAYS_OF_THE_WEEK, List.mem_cons, List.not_mem_nil, or_false,
                     Prod.mk.injEq] at hmem
          rcases hmem with ⟨rfl, rfl⟩ | ⟨rfl, rfl⟩ | ⟨rfl, rfl⟩ | ⟨rfl, rfl⟩ |
            ⟨rfl, rfl⟩ | ⟨rfl, rfl⟩ | ⟨rfl, rfl⟩ <;>
            exact render_parse_of_day _ _ _ _ (by decide) (by decide) hstle hetle
        · cases h
      · cases h
    · cases h
  · cases h

/-- Witness for C9: the round-trip theorem applied to the parse of
`Mon 10:00-11:00`. -/
theorem c9_witness :
    parseTimePeriod (renderTimePeriod ⟨1, "Monday".toList, 600, 660⟩) =
      some ⟨1, "Monday".toList, 600, 660⟩ :=
  c9_roundtrip ("Mon 10:00-11:00".toList) ⟨1, "Monday".toList, 600, 660⟩ (by decide)

/-- Counterexample to C8 as stated: in `Mon 10:00-11:00-12:00` the time
portion is three dash-separated values, not two, so the claim demands a
parse error, yet parsing succeeds (the third value is ignored). -/
theorem c8_counterexample :
    splitOnChar '-' ("10:00-11:00-12:00".toList) =
      ["10:00".toList, "11:00".toList, "12:00".toList] ∧
    parseTimePeriod ("Mon 10:00-11:00-12:00".toList) =
      some ⟨1, "Monday".toList, 600, 660⟩ := by
  constructor
  · decide
  · decide

/-- C8 (amended): the weekday is resolved by prefix match against the
full weekday names in table order, first match winning, and parsing
fails exactly when the string has no space, no weekday name starts with
the prefix, the time portion has no dash, or either of the FIRST TWO
dash-separated fields is not a valid time; later fields are ignored. -/
theorem c8_parse_characterization :
    (∀ s : List Char, parse_day s =
        Option.map (fun e => (e.2, e.1))
          (DAYS_OF_THE_WEEK.find? (fun e => List.isPrefixOf s e.1))) ∧
    (∀ l : List Char, (parseTimePeriod l).isSome = true ↔
        ∃ p0 p1 rest, splitOnChar ' ' l = p0 :: p1 :: rest ∧
          (parse_day p0).isSome = true ∧
          ∃ t0 t1 tr, splitOnChar '-' p1 = t0 :: t1 :: tr ∧
            (parseHM t0).isSome = true ∧ (parseHM t1).isSome = true) := by
  constructor
  · intro s
    exact parseDayAux_find s DAYS_OF_THE_WEEK
  · intro l
    rcases hsp : splitOnChar ' ' l with _ | ⟨p0, _ | ⟨p1, rest⟩⟩
    · simp [parseTimePeriod, hsp]
    · simp [parseTimePeriod, hsp]
    · rcases hpd : parse_day p0 with _ | ⟨d, ds⟩
      · simp [parseTimePeriod, hsp, hpd]
      · rcases hs2 : splitOnChar '-' p1 with _ | ⟨t0, _ | ⟨t1, tr⟩⟩
        · simp [parseTimePeriod, hsp, hpd, hs2]
        · simp [parseTimePeriod, hsp, hpd, hs2]
        · rcases h0 : parseHM t0 with _ | st
          · simp [parseTimePeriod, hsp, hpd, hs2, h0]
          · rcases h1 : parseHM t1 with _ | et
            · simp [parseTimePeriod, hsp, hpd, hs2, h0, h1]
            · constructor
              · intro _
                exact ⟨p0, p1, rest, by simp [hsp], by simp [hpd], t0, t1, tr,
                       by simp [hs2], by simp [h0], by simp [h1]⟩
              · intro _
                simp [parseTimePeriod, hsp, hpd, hs2, h0, h1]

/-- Counterexample to C1 as stated: for `A = B = Mon 10:00-11:00` the
inclusive containment after (trivial) buffer expansion holds, yet
`fits_in` is false, because the source compares strictly. -/
theorem c1_counterexample :
    ¬ (fits_in exMeeting exMeeting = true ↔
        (get_times exMeeting).1 ≤ (get_times exMeeting).1 ∧
        (get_times exMeeting).2 ≤ (get_times exMeeting).2) := by decide

/-- C1 (amended): for windows on the same weekday, `fits_in` holds iff
the containment is STRICT on both ends of the `get_times` intervals
(which carry no buffer expansion): `B.start < A.start` and
`A.end < B.end`. -/
theorem c1_fits_in_strict_containment (A B : TimePeriod) (h : A.day = B.day) :
    fits_in A B = true ↔
      (get_times B).1 < (get_times A).1 ∧ (get_times A).2 < (get_times B).2 := by
  simp [fits_in, get_times, h]

/-- Witness for C1: the amended theorem applied to `Mon 10:00-11:00`
inside `Mon 09:00-12:00`. -/
theorem c1_witness : fits_in exMeeting exFree = true ↔
    (get_times exFree).1 < (get_times exMeeting).1 ∧
    (get_times exMeeting).2 < (get_times exFree).2 :=
  c1_fits_in_strict_containment exMeeting exFree rfl

/-- C5: contrary to its own docstring, `get_times` returns the raw start
and end times of every window; no travel buffer exists on the class and
none is applied. -/
theorem c5_get_times_raw (p : TimePeriod) :
    get_times p = (p.start_time, p.end_time) := rfl

/-- C6: a team whose geocoding failed (distance unknown) is NOT processed
through matching without error: as soon as one of its windows fits a
mentor's free window, `SuitableMentor.__init__` divides the `None`
distance and raises `TypeError`. -/
theorem c6_unknown_distance_raises :
    is_suitable_for exRookie exTeamNoDist = .error "TypeError" := rfl

/-- C10: when `fits_in` holds, the strict comparisons make
`journey_there` and `journey_back` strictly positive, so the journey
durations in hours used as divisors for the speeds are nonzero: the
speed divisions in `SuitableMentor.__init__` never divide by zero. -/
theorem c10_positive_journeys (mt ft : TimePeriod) (h : fits_in mt ft = true) :
    0 < journey_there_of mt ft ∧ 0 < journey_back_of mt ft ∧
    hours_of (journey_there_of mt ft) ≠ 0 ∧ hours_of (journey_back_of mt ft) ≠ 0 := by
  rw [fits_in] at h
  split at h
  · exact absurd h (by simp)
  · simp only [get_times, Bool.and_eq_true, decide_eq_true_eq] at h
    obtain ⟨h1, h2⟩ := h
    have hjt : 0 < journey_there_of mt ft := by
      simp only [journey_there_of, get_times]; omega
    have hjb : 0 < journey_back_of mt ft := by
      simp only [journey_back_of, get_times]; omega
    refine ⟨hjt, hjb, ?_, ?_⟩
    · have hpos : (0 : ℚ) < hours_of (journey_there_of mt ft) := by
        rw [hours_of]
        have : (0 : ℚ) < ((journey_there_of mt ft * 60 : Int) : ℚ) := by
          exact_mod_cast by omega
        positivity
      exact ne_of_gt hpos
    · have hpos : (0 : ℚ) < hours_of (journey_back_of mt ft) := by
        rw [hours_of]
        have : (0 : ℚ) < ((journey_back_of mt ft * 60 : Int) : ℚ) := by
          exact_mod_cast by omega
        positivity
      exact ne_of_gt hpos

/-- Witness for C10: the theorem applied to `Mon 10:00-11:00` fitting in
`Mon 09:00-12:00`. -/
theorem c10_witness :
    0 < journey_there_of exMeeting exFree ∧ 0 < journey_back_of exMeeting exFree ∧
    hours_of (journey_there_of exMeeting exFree) ≠ 0 ∧
    hours_of (journey_back_of exMeeting exFree) ≠ 0 :=
  c10_positive_journeys exMeeting exFree (by decide)
